import Mathlib

/-!
Shallow embedding of the betting/settlement engine of the roulette bot
(src/roulette.py, src/models.py, src/exceptions.py).

Python's mutable `RouletteGame` object is modelled as an explicit `Game`
state threaded through the operations.  The players-data dict is a total
function `String → Option Int` (`none` = key absent).  Operations that can
raise return `Except (RErr × Game)`, the error carrying the state of the
game object at the moment the exception propagates (the Python code never
mutates before raising inside a single operation, except the settlement
loop, which is modelled faithfully below).  Python truthiness of the
optional `number` and `color` fields is modelled explicitly.
-/

deriving instance DecidableEq for Except

namespace Roulette

/-- Python `str.lower()` on the embedding's string model (per-character
lowercasing; the bot's color strings are ASCII). -/
def pyLower (s : String) : String := ⟨s.data.map Char.toLower⟩

/-- models.Player -/
structure Player where
  id : String
  name : String
  channel_id : Int
deriving DecidableEq, Repr

/-- models.Bet: `color` and `number` are `Optional` in the source. -/
structure Bet where
  player : Player
  color : Option String
  number : Option Int
  amount : Int
deriving DecidableEq, Repr

/-- models.PlayerBetResult -/
structure PlayerBetResult where
  player : Player
  prize : Int
  balance : Int
deriving DecidableEq, Repr

/-- The exceptions of src/exceptions.py, plus the two runtime errors the
Python code can raise on its own: `attributeError` for calling `.lower()`
on `None`, and `keyError` for `dict[k] -= v` on a missing key. -/
inductive RErr where
  | wrongNumber (num : Int)
  | wrongColor (color : String) (colors : List String)
  | minimalBet (minimal_bet : Int)
  | insufficientBalance (balance : Int) (bet : Int)
  | attributeError
  | keyError
deriving DecidableEq, Repr

def MINIMAL_BET : Int := 1
def STARTING_BALANCE : Int := 100
def NUMBER_PRIZE_MULTIPLIER : Int := 36
def COLOR_PRIZE_MULTIPLIER : Int := 2
def COLORS : List String := ["red", "black"]
def RED_NUMBERS : List Int :=
  [1, 3, 5, 7, 9, 12, 14, 16, 18, 19, 21, 23, 25, 27, 30, 32, 34, 36]
def BLACK_NUMBERS : List Int :=
  [2, 4, 6, 8, 10, 11, 13, 15, 17, 20, 22, 24, 26, 28, 29, 31, 33, 35]
def GREEN_NUMBERS : List Int := [0]

/-- The mutable state of a `RouletteGame`: the pending `self.bets` list and
the `self.__players_data` dict. Saving through the data manager is a
side effect outside the engine state and is not modelled. -/
structure Game where
  bets : List Bet
  data : String → Option Int

/-- Python truthiness of the optional `bet.number` (None and 0 are falsy). -/
def truthyNumber : Option Int → Bool
  | none => false
  | some v => v != 0

/-- Python truthiness of the optional `bet.color` (None and "" are falsy). -/
def truthyColor : Option String → Bool
  | none => false
  | some s => s != ""

/-- RouletteGame.get_color -/
def get_color (num : Int) : Except RErr String :=
  if num ∈ RED_NUMBERS then .ok "red"
  else if num ∈ BLACK_NUMBERS then .ok "black"
  else if num ∈ GREEN_NUMBERS then .ok "green"
  else .error (.wrongNumber num)

/-- RouletteGame.get_player_balance: `self.__players_data.get(player_id, 0)` -/
def get_player_balance (g : Game) (player_id : String) : Int :=
  (g.data player_id).getD 0

/-- RouletteGame.has_sufficient_funds -/
def has_sufficient_funds (g : Game) (player_id : String) (amount : Int) : Bool :=
  decide (0 ≤ get_player_balance g player_id - amount)

/-- `self.__players_data[player_id] = v` -/
def setBalance (g : Game) (player_id : String) (v : Int) : Game :=
  { g with data := fun x => if x = player_id then some v else g.data x }

/-- RouletteGame.add_players: seeds each id not already present at the
literal 100 used in the source. -/
def add_players (g : Game) (players_ids : List String) : Game :=
  players_ids.foldl
    (fun g player_id =>
      if (g.data player_id).isNone then setBalance g player_id 100 else g)
    g

/-- RouletteGame.add_to_balance -/
def add_to_balance (g : Game) (player_id : String) (amount : Int) : Game :=
  setBalance g player_id (get_player_balance g player_id + amount)

/-- RouletteGame.subtract_from_balance: checks funds first, then performs
`self.__players_data[player_id] -= amount` (KeyError on a missing key). -/
def subtract_from_balance (g : Game) (player_id : String) (amount : Int) :
    Except (RErr × Game) Game :=
  if ¬ has_sufficient_funds g player_id amount then
    .error (.insufficientBalance (get_player_balance g player_id) amount, g)
  else
    match g.data player_id with
    | none => .error (.keyError, g)
    | some b => .ok (setBalance g player_id (b - amount))

/-- RouletteGame.place_bet:
`color = self.get_color(bet.number) if bet.number else bet.color`, then
`color.lower() not in self.COLORS` (AttributeError when color is None),
then the amount check, then the debit, then `self.bets.append(bet)`. -/
def place_bet (g : Game) (bet : Bet) : Except (RErr × Game) Game :=
  match
    (if truthyNumber bet.number then Except.map some (get_color (bet.number.getD 0))
     else .ok bet.color) with
  | .error e => .error (e, g)
  | .ok none => .error (.attributeError, g)
  | .ok (some color) =>
    if ¬ (pyLower color ∈ COLORS) then .error (.wrongColor color COLORS, g)
    else if bet.amount ≤ 0 then .error (.minimalBet MINIMAL_BET, g)
    else
      match subtract_from_balance g bet.player.id bet.amount with
      | .error e => .error e
      | .ok g2 => .ok { g2 with bets := g2.bets ++ [bet] }

/-- RouletteGame.calculate_number_prize -/
def calculate_number_prize (num winning_number amount : Int) : Int :=
  if num = winning_number then amount * NUMBER_PRIZE_MULTIPLIER else 0

/-- RouletteGame.calculate_color_prize:
`amount * 2 if color and color.lower() == self.get_color(winning_number) else 0`.
The `and` short-circuits, so `get_color` (which can raise) only runs when
`color` is truthy. -/
def calculate_color_prize (color : Option String) (winning_number amount : Int) :
    Except RErr Int :=
  if truthyColor color then
    match get_color winning_number with
    | .error e => .error e
    | .ok wc =>
      .ok (if pyLower (color.getD "") = wc then amount * COLOR_PRIZE_MULTIPLIER else 0)
  else .ok 0

/-- RouletteGame.calculate_prize: dispatches on `if bet.number:`
(Python truthiness, so a number of 0 goes to the color branch). -/
def calculate_prize (bet : Bet) (winning_number : Int) : Except RErr Int :=
  if truthyNumber bet.number then
    .ok (calculate_number_prize (bet.number.getD 0) winning_number bet.amount)
  else calculate_color_prize bet.color winning_number bet.amount

/-- PlayersStats.add_result on the insertion-ordered list of dict values:
if an entry with the same player id exists, accumulate prize and overwrite
balance; otherwise append. -/
def add_result (stats : List PlayerBetResult) (r : PlayerBetResult) :
    List PlayerBetResult :=
  if stats.any (fun s => s.player.id == r.player.id) then
    stats.map (fun s =>
      if s.player.id == r.player.id then
        { s with prize := s.prize + r.prize, balance := r.balance }
      else s)
  else stats ++ [r]

/-- The `while self.bets: bet = self.bets.pop()` loop of
RouletteGame.calculate_results. `pop()` removes the last element, so the
loop processes the bets in reverse list order with the list emptied as it
goes; the loop therefore runs here on the reversed bet list, and on an
exception the not-yet-popped bets (`rest.reverse`) are still in `self.bets`. -/
def calculate_results_loop (w : Int) (stats : List PlayerBetResult) (g : Game) :
    List Bet → Except (RErr × Game) (List PlayerBetResult × Game)
  | [] => .ok (stats, g)
  | bet :: rest =>
    match calculate_prize bet w with
    | .error e => .error (e, { g with bets := rest.reverse })
    | .ok prize =>
      let g2 := add_to_balance g bet.player.id prize
      let balance := get_player_balance g2 bet.player.id
      calculate_results_loop w (add_result stats ⟨bet.player, prize, balance⟩) g2 rest

/-- RouletteGame.calculate_results -/
def calculate_results (g : Game) (w : Int) :
    Except (RErr × Game) (List PlayerBetResult × Game) :=
  calculate_results_loop w [] { g with bets := [] } g.bets.reverse

/-- Specification helper: the prize of a bet when `calculate_prize`
succeeds (0 in the error case, which cannot occur for outcomes in [0,36]). -/
def prizeVal (bet : Bet) (w : Int) : Int :=
  match calculate_prize bet w with
  | .ok p => p
  | .error _ => 0

/-- Specification helper: total prize of one player's bets in a round. -/
def prizeSum (id : String) (w : Int) (bets : List Bet) : Int :=
  ((bets.filter (fun b => b.player.id == id)).map (fun b => prizeVal b w)).sum

/-- Specification helper: does some pending bet belong to this player? -/
def hasBet (id : String) (bets : List Bet) : Bool :=
  bets.any (fun b => b.player.id == id)

/-- Specification helper: how many aggregated records name this player? -/
def countId (id : String) (res : List PlayerBetResult) : Nat :=
  res.countP (fun r => r.player.id == id)

/-- Specification helper: the bet's target passes `place_bet`'s target
validation — a number target the code accepts (nonzero, in [0,36]) or a
color target among the legal colors, case-insensitively. -/
def targetAccepted (bet : Bet) : Prop :=
  (∃ n, bet.number = some n ∧ n ≠ 0 ∧ 0 ≤ n ∧ n ≤ 36) ∨
  (truthyNumber bet.number = false ∧ ∃ c, bet.color = some c ∧ pyLower c ∈ COLORS)

/-- Specification helper: every balance at rest in the ledger is ≥ 0. -/
def NonNeg (g : Game) : Prop := ∀ id b, g.data id = some b → 0 ≤ b

/-- The body of the settlement loop as a pure fold step (used to reason
about `calculate_results_loop` when no outcome lies outside [0,36]). -/
def resultsStep (w : Int) (sg : List PlayerBetResult × Game) (bet : Bet) :
    List PlayerBetResult × Game :=
  let g2 := add_to_balance sg.2 bet.player.id (prizeVal bet w)
  (add_result sg.1 ⟨bet.player, prizeVal bet w, get_player_balance g2 bet.player.id⟩, g2)

/-- Loop invariant for settlement: after processing the bets `P`, the stats
list holds exactly one record per player that had a bet in `P`, whose prize
is that player's prize total over `P` and whose balance is the player's
current ledger balance. -/
def StatsInv (w : Int) (P : List Bet) (stats : List PlayerBetResult) (g : Game) : Prop :=
  (∀ id, countId id stats = if hasBet id P then 1 else 0) ∧
  (∀ r ∈ stats, r.prize = prizeSum r.player.id w P ∧
                r.balance = get_player_balance g r.player.id)

/-- Concrete fixtures used by the witnesses below. -/
def pW : Player := ⟨"p1", "Alice", 7⟩

def qW : Player := ⟨"p2", "Bob", 7⟩

def dataW : String → Option Int :=
  fun x => if x = "p1" then some 5 else if x = "p2" then some 100 else none

def gW : Game := { bets := [], data := dataW }

def betRedW : Bet := ⟨qW, some "Red", none, 10⟩

def betNumW : Bet := ⟨qW, none, some 17, 10⟩

def gBetsW : Game := { bets := [betRedW, betNumW, ⟨pW, some "black", none, 5⟩], data := dataW }

def betInsufW : Bet := ⟨pW, some "red", none, 10⟩

def betNum37W : Bet := ⟨qW, none, some 37, 3⟩

def betZeroW : Bet := ⟨qW, none, some 0, 3⟩

end Roulette

namespace Roulette

lemma get_color_ok_of_range (w : Int) (h0 : 0 ≤ w) (h1 : w ≤ 36) :
    ∃ c, get_color w = .ok c := by
  interval_cases w <;> exact ⟨_, rfl⟩

lemma get_color_error_of_outside (n : Int) (hn : n < 0 ∨ 36 < n) :
    get_color n = .error (.wrongNumber n) := by
  have h1 : n ∉ RED_NUMBERS := by rcases hn with h | h <;> simp [RED_NUMBERS] <;> omega
  have h2 : n ∉ BLACK_NUMBERS := by rcases hn with h | h <;> simp [BLACK_NUMBERS] <;> omega
  have h3 : n ∉ GREEN_NUMBERS := by rcases hn with h | h <;> simp [GREEN_NUMBERS] <;> omega
  simp [get_color, h1, h2, h3]

lemma get_color_red_or_black (n : Int) (h0 : 0 ≤ n) (h1 : n ≤ 36) (hn : n ≠ 0) :
    get_color n = .ok "red" ∨ get_color n = .ok "black" := by
  interval_cases n
  · exact absurd rfl hn
  all_goals first
    | exact Or.inl rfl
    | exact Or.inr rfl

lemma calculate_prize_isOk (bet : Bet) (w : Int) (h0 : 0 ≤ w) (h1 : w ≤ 36) :
    ∃ p, calculate_prize bet w = .ok p := by
  obtain ⟨c, hc⟩ := get_color_ok_of_range w h0 h1
  unfold calculate_prize calculate_color_prize
  by_cases hN : truthyNumber bet.number
  · simp [hN]
  · by_cases hC : truthyColor bet.color
    · simp [hN, hC, hc]
    · simp [hN, hC]

lemma calculate_prize_eq_prizeVal (bet : Bet) (w : Int) (h0 : 0 ≤ w) (h1 : w ≤ 36) :
    calculate_prize bet w = .ok (prizeVal bet w) := by
  obtain ⟨p, hp⟩ := calculate_prize_isOk bet w h0 h1
  simp [prizeVal, hp]

end Roulette

namespace Roulette

lemma get_player_balance_setBalance (g : Game) (id id2 : String) (v : Int) :
    get_player_balance (setBalance g id v) id2 =
      if id2 = id then v else get_player_balance g id2 := by
  unfold get_player_balance setBalance
  by_cases h : id2 = id <;> simp [h]

lemma setBalance_bets (g : Game) (id : String) (v : Int) :
    (setBalance g id v).bets = g.bets := rfl

lemma add_to_balance_balance (g : Game) (id id2 : String) (a : Int) :
    get_player_balance (add_to_balance g id a) id2 =
      if id2 = id then get_player_balance g id + a else get_player_balance g id2 := by
  unfold add_to_balance
  exact get_player_balance_setBalance g id id2 _

lemma prizeSum_nil (id : String) (w : Int) : prizeSum id w [] = 0 := rfl

lemma prizeSum_cons (id : String) (w : Int) (b : Bet) (l : List Bet) :
    prizeSum id w (b :: l) =
      (if b.player.id = id then prizeVal b w else 0) + prizeSum id w l := by
  unfold prizeSum
  rw [List.filter_cons]
  by_cases h : b.player.id = id <;> simp [h]

lemma hasBet_cons (id : String) (b : Bet) (l : List Bet) :
    hasBet id (b :: l) = (b.player.id == id || hasBet id l) := by
  simp [hasBet]

lemma loop_eq_foldl (w : Int) (h0 : 0 ≤ w) (h1 : w ≤ 36) :
    ∀ (l : List Bet) (stats : List PlayerBetResult) (g : Game),
      calculate_results_loop w stats g l = .ok (l.foldl (resultsStep w) (stats, g)) := by
  intro l
  induction l with
  | nil => intro stats g; rfl
  | cons bet rest ih =>
    intro stats g
    rw [calculate_results_loop, calculate_prize_eq_prizeVal bet w h0 h1]
    exact ih _ _

lemma foldl_bets (w : Int) :
    ∀ (l : List Bet) (stats : List PlayerBetResult) (g : Game),
      (l.foldl (resultsStep w) (stats, g)).2.bets = g.bets := by
  intro l
  induction l with
  | nil => intro stats g; rfl
  | cons bet rest ih =>
    intro stats g
    rw [List.foldl_cons, ih]
    rfl

lemma foldl_balance (w : Int) :
    ∀ (l : List Bet) (stats : List PlayerBetResult) (g : Game) (id : String),
      get_player_balance (l.foldl (resultsStep w) (stats, g)).2 id =
        get_player_balance g id + prizeSum id w l := by
  intro l
  induction l with
  | nil => intro stats g id; simp [prizeSum_nil]
  | cons bet rest ih =>
    intro stats g id
    rw [List.foldl_cons, prizeSum_cons]
    show get_player_balance (rest.foldl (resultsStep w) _).2 id = _
    rw [ih]
    unfold resultsStep
    simp only
    rw [add_to_balance_balance]
    by_cases h : id = bet.player.id
    · simp [h]; ring
    · have h2 : ¬ bet.player.id = id := fun hh => h hh.symm
      simp [h, h2]


lemma countId_map_update (stats : List PlayerBetResult) (id q : String)
    (p newbal : Int) :
    countId id (stats.map (fun s =>
      if s.player.id == q then { s with prize := s.prize + p, balance := newbal }
      else s)) = countId id stats := by
  unfold countId
  rw [List.countP_map]
  refine List.countP_congr ?_
  intro s _
  by_cases h : s.player.id = q <;> simp [h]

lemma countId_append_single (stats : List PlayerBetResult) (id : String)
    (r : PlayerBetResult) :
    countId id (stats ++ [r]) = countId id stats + (if r.player.id = id then 1 else 0) := by
  unfold countId
  rw [List.countP_append]
  by_cases h : r.player.id = id <;> simp [h]

lemma hasBet_append_single (id : String) (P : List Bet) (b : Bet) :
    hasBet id (P ++ [b]) = (hasBet id P || b.player.id == id) := by
  simp [hasBet]

lemma prizeSum_append_single (id : String) (w : Int) (P : List Bet) (b : Bet) :
    prizeSum id w (P ++ [b]) =
      prizeSum id w P + (if b.player.id = id then prizeVal b w else 0) := by
  unfold prizeSum
  rw [List.filter_append, List.map_append, List.sum_append]
  by_cases h : b.player.id = id <;> simp [h]

lemma countId_pos_of_any (stats : List PlayerBetResult) (q : String)
    (h : stats.any (fun s => s.player.id == q) = true) :
    0 < countId q stats := by
  unfold countId
  rw [List.countP_pos_iff]
  rw [List.any_eq_true] at h
  obtain ⟨s, hs, hq⟩ := h
  exact ⟨s, hs, hq⟩

lemma countId_zero_of_not_any (stats : List PlayerBetResult) (q : String)
    (h : stats.any (fun s => s.player.id == q) = false) :
    countId q stats = 0 := by
  unfold countId
  rw [List.countP_eq_zero]
  intro s hs
  rw [List.any_eq_false] at h
  exact h s hs

lemma prizeSum_of_not_hasBet (id : String) (w : Int) (P : List Bet)
    (h : hasBet id P = false) :
    prizeSum id w P = 0 := by
  unfold prizeSum
  unfold hasBet at h
  rw [List.any_eq_false] at h
  have hf : P.filter (fun b => b.player.id == id) = [] := by
    rw [List.filter_eq_nil_iff]
    exact h
  rw [hf]
  rfl


lemma statsInv_step (w : Int) (P : List Bet) (stats : List PlayerBetResult)
    (g : Game) (bet : Bet) (h : StatsInv w P stats g) :
    StatsInv w (P ++ [bet])
      (resultsStep w (stats, g) bet).1 (resultsStep w (stats, g) bet).2 := by
  obtain ⟨hcount, hmem⟩ := h
  unfold resultsStep add_result
  simp only
  by_cases hany : stats.any (fun s => s.player.id == bet.player.id) = true
  · -- an entry for this player already exists: update in place
    have hqP : hasBet bet.player.id P = true := by
      have hpos := countId_pos_of_any stats bet.player.id hany
      rw [hcount bet.player.id] at hpos
      by_cases hb : hasBet bet.player.id P
      · exact hb
      · simp [hb] at hpos
    rw [if_pos hany]
    constructor
    · intro id
      rw [countId_map_update, hcount id, hasBet_append_single]
      by_cases hid : hasBet id P = true
      · simp [hid]
      · have hne : ¬ bet.player.id = id := by
          intro he
          rw [he] at hqP
          exact hid hqP
        simp [hid, hne]
    · intro r hr
      rw [List.mem_map] at hr
      obtain ⟨s, hs, hfs⟩ := hr
      by_cases hsq : s.player.id = bet.player.id
      · rw [if_pos (by simp [hsq])] at hfs
        subst hfs
        obtain ⟨hp, hb⟩ := hmem s hs
        refine ⟨?_, ?_⟩
        · simp only
          rw [prizeSum_append_single]
          simp [hsq, hp]
        · simp only [hsq]
      · rw [if_neg (by simp [hsq])] at hfs
        subst hfs
        obtain ⟨hp, hb⟩ := hmem s hs
        refine ⟨?_, ?_⟩
        · rw [prizeSum_append_single]
          have : ¬ bet.player.id = s.player.id := fun he => hsq he.symm
          simp [this, hp]
        · rw [hb, add_to_balance_balance]
          simp [hsq]
  · -- no entry yet: append a fresh record
    have hany2 : stats.any (fun s => s.player.id == bet.player.id) = false := by
      exact Bool.eq_false_iff.mpr hany
    have hqP : hasBet bet.player.id P = false := by
      have hz := countId_zero_of_not_any stats bet.player.id hany2
      rw [hcount bet.player.id] at hz
      by_cases hb : hasBet bet.player.id P
      · simp [hb] at hz
      · exact Bool.eq_false_iff.mpr hb
    rw [if_neg hany]
    constructor
    · intro id
      rw [countId_append_single, hcount id, hasBet_append_single]
      by_cases hid : bet.player.id = id
      · have : hasBet id P = false := by rw [← hid]; exact hqP
        simp [hid, this]
      · simp [hid]
    · intro r hr
      rw [List.mem_append] at hr
      rcases hr with hr | hr
      · obtain ⟨hp, hb⟩ := hmem r hr
        have hrq : ¬ r.player.id = bet.player.id := by
          intro he
          rw [List.any_eq_false] at hany2
          exact absurd (by simp [he]) (hany2 r hr)
        refine ⟨?_, ?_⟩
        · rw [prizeSum_append_single]
          have : ¬ bet.player.id = r.player.id := fun he => hrq he.symm
          simp [this, hp]
        · rw [hb, add_to_balance_balance]
          simp [hrq]
      · rw [List.mem_singleton] at hr
        subst hr
        refine ⟨?_, ?_⟩
        · simp only
          rw [prizeSum_append_single]
          simp [prizeSum_of_not_hasBet _ w P hqP]
        · simp only


lemma statsInv_foldl (w : Int) :
    ∀ (l P : List Bet) (stats : List PlayerBetResult) (g : Game),
      StatsInv w P stats g →
      StatsInv w (P ++ l)
        (l.foldl (resultsStep w) (stats, g)).1
        (l.foldl (resultsStep w) (stats, g)).2 := by
  intro l
  induction l with
  | nil => intro P stats g h; simpa using h
  | cons bet rest ih =>
    intro P stats g h
    rw [List.foldl_cons]
    have hstep := statsInv_step w P stats g bet h
    have := ih (P ++ [bet]) _ _ hstep
    rwa [List.append_assoc, List.singleton_append] at this

lemma statsInv_init (w : Int) (g : Game) : StatsInv w [] [] g := by
  constructor
  · intro id
    simp [countId, hasBet]
  · intro r hr
    exact absurd hr (List.not_mem_nil r)

lemma prizeSum_reverse (id : String) (w : Int) (l : List Bet) :
    prizeSum id w l.reverse = prizeSum id w l := by
  unfold prizeSum
  rw [List.filter_reverse, List.map_reverse, List.sum_reverse]

lemma hasBet_reverse (id : String) (l : List Bet) :
    hasBet id l.reverse = hasBet id l := by
  unfold hasBet
  rw [List.any_reverse]

/-- C2: batched settlement consumes every pending bet exactly once, credits
each prize to its player, returns one record per distinct player with the
summed prize and the player's final balance, and empties the pending list. -/
theorem calculate_results_settles_each_bet_once (g : Game) (w : Int)
    (h0 : 0 ≤ w) (h1 : w ≤ 36) :
    ∃ res g2, calculate_results g w = .ok (res, g2) ∧
      g2.bets = [] ∧
      (∀ id, get_player_balance g2 id = get_player_balance g id + prizeSum id w g.bets) ∧
      (∀ id, countId id res = if hasBet id g.bets then 1 else 0) ∧
      (∀ r ∈ res, r.prize = prizeSum r.player.id w g.bets ∧
                  r.balance = get_player_balance g2 r.player.id) := by
  unfold calculate_results
  rw [loop_eq_foldl w h0 h1]
  refine ⟨_, _, rfl, ?_, ?_, ?_, ?_⟩
  · rw [foldl_bets]
  · intro id
    rw [foldl_balance, prizeSum_reverse]
    rfl
  · intro id
    have := (statsInv_foldl w g.bets.reverse [] [] { g with bets := [] }
      (statsInv_init w _)).1 id
    rw [List.nil_append] at this
    rw [this, hasBet_reverse]
  · intro r hr
    have := (statsInv_foldl w g.bets.reverse [] [] { g with bets := [] }
      (statsInv_init w _)).2 r (by simpa using hr)
    rw [List.nil_append, prizeSum_reverse] at this
    exact this


/-- C6: every outcome in [0,36] gets exactly one of the three colors from
`get_color`; 18 outcomes are red, 18 are black, only 0 is green; any number
outside [0,36] fails with WrongNumberError carrying that number. -/
theorem C6_get_color_partition :
    (∀ n : Int, 0 ≤ n → n ≤ 36 →
      get_color n = .ok "red" ∨ get_color n = .ok "black" ∨ get_color n = .ok "green") ∧
    ((List.range 37).filter (fun k => get_color (Int.ofNat k) == Except.ok "red")).length = 18 ∧
    ((List.range 37).filter (fun k => get_color (Int.ofNat k) == Except.ok "black")).length = 18 ∧
    ((List.range 37).filter (fun k => get_color (Int.ofNat k) == Except.ok "green")).length = 1 ∧
    get_color 0 = .ok "green" ∧
    (∀ n : Int, n < 0 ∨ 36 < n → get_color n = .error (.wrongNumber n)) := by
  refine ⟨?_, by decide, by decide, by decide, by decide, ?_⟩
  · intro n h0 h1
    interval_cases n <;> decide
  · exact get_color_error_of_outside

/-- C6 witness: `get_color` at the in-range outcome 7 and the out-of-range
number -3. -/
theorem C6_get_color_partition_witness :
    (get_color 7 = .ok "red" ∨ get_color 7 = .ok "black" ∨ get_color 7 = .ok "green") ∧
    get_color (-3) = .error (.wrongNumber (-3)) :=
  ⟨C6_get_color_partition.1 7 (by decide) (by decide),
   C6_get_color_partition.2.2.2.2.2 (-3) (Or.inl (by decide))⟩

/-- C1 (code bug evaluation): a bet on number 0 with amount 10 is settled by
`calculate_prize` through the color branch and pays 0 when the outcome is 0,
although `calculate_number_prize` would pay 10 * 36 for that match. -/
theorem C1_number_zero_bet_pays_zero :
    calculate_prize ⟨pW, none, some 0, 10⟩ 0 = .ok 0 ∧
    calculate_number_prize 0 0 10 = 10 * NUMBER_PRIZE_MULTIPLIER := by decide

/-- C10: a bet on the legal number 0 (color absent) is never accepted by
`place_bet`: `bet.number` is falsy, so the code falls back to `bet.color`,
which is `None`, and `None.lower()` raises AttributeError — none of the four
caller-facing validation errors — leaving the game state unchanged (the
error carries the untouched state `g`). -/
theorem C10_number_zero_bet_never_accepted (g : Game) (bet : Bet)
    (hn : bet.number = some 0) (hc : bet.color = none)
    (hpos : 0 < bet.amount)
    (hfunds : bet.amount ≤ get_player_balance g bet.player.id) :
    place_bet g bet = .error (.attributeError, g) := by
  have htn : truthyNumber bet.number = false := by rw [hn]; rfl
  simp [place_bet, htn, hc]

/-- C10 witness: number-0 bet of 3 by a player with balance 100. -/
theorem C10_number_zero_bet_never_accepted_witness :
    place_bet gW betZeroW = .error (.attributeError, gW) :=
  C10_number_zero_bet_never_accepted gW betZeroW rfl rfl (by decide) (by decide)


/-- C7: a color bet on "red" or "black" (case-insensitively) pays
amount * 2 exactly when the lowercased bet color equals the winning
number's color, else 0; outcome 0 (the house color green) pays 0. -/
theorem C7_color_prize_case_insensitive (bet : Bet) (c : String)
    (hn : bet.number = none) (hc : bet.color = some c)
    (hcol : pyLower c ∈ COLORS) :
    (∀ w : Int, 0 ≤ w → w ≤ 36 →
      ∃ cw, get_color w = .ok cw ∧
        calculate_prize bet w =
          .ok (if pyLower c = cw then bet.amount * COLOR_PRIZE_MULTIPLIER else 0)) ∧
    calculate_prize bet 0 = .ok 0 := by
  have hne : c ≠ "" := by
    intro he
    rw [he] at hcol
    exact absurd hcol (by decide)
  have htn : truthyNumber bet.number = false := by rw [hn]; rfl
  have htc : truthyColor bet.color = true := by rw [hc]; simp [truthyColor, hne]
  have hmain : ∀ w : Int, 0 ≤ w → w ≤ 36 →
      ∃ cw, get_color w = .ok cw ∧
        calculate_prize bet w =
          .ok (if pyLower c = cw then bet.amount * COLOR_PRIZE_MULTIPLIER else 0) := by
    intro w h0 h1
    obtain ⟨cw, hcw⟩ := get_color_ok_of_range w h0 h1
    refine ⟨cw, hcw, ?_⟩
    unfold calculate_prize calculate_color_prize
    rw [htn, hc] at *
    simp [htn, htc, hcw, hc]
  refine ⟨hmain, ?_⟩
  obtain ⟨cw, hcw, hp⟩ := hmain 0 (by decide) (by decide)
  have hgreen : get_color 0 = .ok "green" := by decide
  rw [hgreen] at hcw
  have hcw2 : cw = "green" := by
    have := Except.ok.inj hcw
    exact this.symm
  subst hcw2
  have hneq : pyLower c ≠ "green" := by
    intro he
    rw [he] at hcol
    exact absurd hcol (by decide)
  rw [hp, if_neg hneq]

/-- C7 witness: a bet of 10 on "Red" (mixed case) wins 20 against outcome 1
(red) and 0 against outcome 0 (green). -/
theorem C7_color_prize_case_insensitive_witness :
    pyLower "Red" ∈ COLORS ∧
    (∃ cw, get_color 1 = .ok cw ∧
      calculate_prize betRedW 1 =
        .ok (if pyLower "Red" = cw then betRedW.amount * COLOR_PRIZE_MULTIPLIER else 0)) ∧
    calculate_prize betRedW 0 = .ok 0 :=
  ⟨by decide,
   (C7_color_prize_case_insensitive betRedW "Red" rfl rfl (by decide)).1 1
     (by decide) (by decide),
   (C7_color_prize_case_insensitive betRedW "Red" rfl rfl (by decide)).2⟩


lemma add_players_cons (g : Game) (hd : String) (tl : List String) :
    add_players g (hd :: tl) =
      add_players (if (g.data hd).isNone then setBalance g hd 100 else g) tl := rfl

lemma add_players_of_isSome :
    ∀ (ids : List String) (g : Game) (id : String),
      (g.data id).isSome → (add_players g ids).data id = g.data id := by
  intro ids
  induction ids with
  | nil => intro g id _; rfl
  | cons hd tl ih =>
    intro g id hs
    rw [add_players_cons]
    by_cases hhd : (g.data hd).isNone
    · rw [if_pos hhd]
      have hne : id ≠ hd := by
        intro he
        subst he
        rw [Option.isNone_iff_eq_none] at hhd
        rw [hhd] at hs
        exact absurd hs (by decide)
      have hdata : (setBalance g hd 100).data id = g.data id := by
        simp [setBalance, hne]
      rw [ih _ id (by rw [hdata]; exact hs), hdata]
    · rw [if_neg hhd]
      exact ih g id hs

lemma add_players_isSome_of_mem :
    ∀ (ids : List String) (g : Game) (id : String),
      id ∈ ids → ((add_players g ids).data id).isSome := by
  intro ids
  induction ids with
  | nil => intro g id h; exact absurd h (List.not_mem_nil id)
  | cons hd tl ih =>
    intro g id h
    rw [add_players_cons]
    by_cases htl : id ∈ tl
    · exact ih _ id htl
    · have hid : id = hd := by
        rcases List.mem_cons.mp h with h | h
        · exact h
        · exact absurd h htl
      subst hid
      have hsome : ((if (g.data id).isNone then setBalance g id 100 else g).data id).isSome := by
        by_cases hn : (g.data id).isNone
        · simp [hn, setBalance]
        · rw [if_neg hn]
          cases hgd : g.data id with
          | none => exact absurd (by rw [hgd]; rfl) hn
          | some b => simp
      rw [add_players_of_isSome tl _ id hsome]
      exact hsome

lemma add_players_of_not_mem :
    ∀ (ids : List String) (g : Game) (id : String),
      id ∉ ids → (add_players g ids).data id = g.data id := by
  intro ids
  induction ids with
  | nil => intro g id _; rfl
  | cons hd tl ih =>
    intro g id h
    have hne : id ≠ hd := fun he => h (by rw [he]; exact List.mem_cons_self hd tl)
    have htl : id ∉ tl := fun he => h (List.mem_cons_of_mem hd he)
    rw [add_players_cons]
    by_cases hhd : (g.data hd).isNone
    · rw [if_pos hhd, ih _ id htl]
      simp [setBalance, hne]
    · rw [if_neg hhd]
      exact ih g id htl

lemma add_players_seeds :
    ∀ (ids : List String) (g : Game) (id : String),
      id ∈ ids → g.data id = none → (add_players g ids).data id = some 100 := by
  intro ids
  induction ids with
  | nil => intro g id h _; exact absurd h (List.not_mem_nil id)
  | cons hd tl ih =>
    intro g id h hnone
    rw [add_players_cons]
    by_cases hid : id = hd
    · subst hid
      rw [if_pos (by rw [Option.isNone_iff_eq_none]; exact hnone)]
      have hset : (setBalance g id 100).data id = some 100 := by simp [setBalance]
      rw [add_players_of_isSome tl _ id (by rw [hset]; rfl), hset]
    · have htl : id ∈ tl := by
        rcases List.mem_cons.mp h with h | h
        · exact absurd h hid
        · exact h
      by_cases hhd : (g.data hd).isNone
      · rw [if_pos hhd]
        refine ih _ id htl ?_
        simp [setBalance, hid, hnone]
      · rw [if_neg hhd]
        exact ih g id htl hnone

/-- C8: `add_players` seeds every identifier not yet in the ledger at the
fixed starting balance 100, leaves already-present players untouched, and
is idempotent. -/
theorem C8_add_players_seeds_and_idempotent (g : Game) (ids : List String) :
    (∀ id ∈ ids, g.data id = none → (add_players g ids).data id = some 100) ∧
    (∀ id, g.data id ≠ none → (add_players g ids).data id = g.data id) ∧
    (∀ id, (add_players (add_players g ids) ids).data id = (add_players g ids).data id) := by
  refine ⟨fun id h hnone => add_players_seeds ids g id h hnone, ?_, ?_⟩
  · intro id h
    exact add_players_of_isSome ids g id (Option.ne_none_iff_isSome.mp h)
  · intro id
    by_cases hmem : id ∈ ids
    · exact add_players_of_isSome ids _ id (add_players_isSome_of_mem ids g id hmem)
    · exact add_players_of_not_mem ids _ id hmem

/-- C8 witness: seeding a fresh id "p3" gives 100; the already-present
"p2" keeps its balance (100 here, any value in general); re-running
changes nothing at "p3". -/
theorem C8_add_players_seeds_and_idempotent_witness :
    ("p3" ∈ ["p3", "p2"]) ∧ gW.data "p3" = none ∧
    (add_players gW ["p3", "p2"]).data "p3" = some 100 ∧
    gW.data "p2" ≠ none ∧
    (add_players gW ["p3", "p2"]).data "p2" = gW.data "p2" ∧
    (add_players (add_players gW ["p3", "p2"]) ["p3", "p2"]).data "p3" =
      (add_players gW ["p3", "p2"]).data "p3" :=
  ⟨by decide, rfl,
   (C8_add_players_seeds_and_idempotent gW ["p3", "p2"]).1 "p3" (by decide) rfl,
   by decide,
   (C8_add_players_seeds_and_idempotent gW ["p3", "p2"]).2.1 "p2" (by decide),
   (C8_add_players_seeds_and_idempotent gW ["p3", "p2"]).2.2 "p3"⟩


/-- C9: crediting X and then debiting X on a seeded player with a
non-negative balance succeeds and restores the original balance, leaving
every other player's balance and the pending bets unchanged. -/
theorem C9_credit_debit_round_trip (g : Game) (id : String) (b X : Int)
    (hb : g.data id = some b) (hb0 : 0 ≤ b) (hX : 0 ≤ X) :
    ∃ g2, subtract_from_balance (add_to_balance g id X) id X = .ok g2 ∧
      g2.data id = some b ∧
      (∀ id2, id2 ≠ id → g2.data id2 = g.data id2) ∧
      g2.bets = g.bets := by
  have hgb : get_player_balance g id = b := by simp [get_player_balance, hb]
  have hadd : (add_to_balance g id X).data id = some (b + X) := by
    simp [add_to_balance, setBalance, hgb]
  have hbal2 : get_player_balance (add_to_balance g id X) id = b + X := by
    simp [get_player_balance, hadd]
  have hsuf : has_sufficient_funds (add_to_balance g id X) id X = true := by
    simp only [has_sufficient_funds, hbal2, decide_eq_true_eq]
    omega
  have heq : subtract_from_balance (add_to_balance g id X) id X =
      .ok (setBalance (add_to_balance g id X) id (b + X - X)) := by
    unfold subtract_from_balance
    rw [if_neg (by simp [hsuf]), hadd]
  refine ⟨_, heq, ?_, ?_, rfl⟩
  · show (if id = id then some (b + X - X) else (add_to_balance g id X).data id) = some b
    rw [if_pos rfl]
    congr 1
    omega
  · intro id2 hne
    simp [setBalance, add_to_balance, hne]

/-- C9 witness: player "p2" at balance 100, credit 7 then debit 7. -/
theorem C9_credit_debit_round_trip_witness :
    ∃ g2, subtract_from_balance (add_to_balance gW "p2" 7) "p2" 7 = .ok g2 ∧
      g2.data "p2" = some 100 ∧
      (∀ id2, id2 ≠ "p2" → g2.data id2 = gW.data id2) ∧
      g2.bets = gW.bets :=
  C9_credit_debit_round_trip gW "p2" 100 7 rfl (by decide) (by decide)


lemma targetAccepted_color (bet : Bet) (ht : targetAccepted bet) :
    ∃ c, (if truthyNumber bet.number then Except.map some (get_color (bet.number.getD 0))
          else .ok bet.color) = .ok (some c) ∧ pyLower c ∈ COLORS := by
  rcases ht with ⟨n, hn, hn0, h0, h36⟩ | ⟨htn, c, hc, hcC⟩
  · have htn : truthyNumber bet.number = true := by
      rw [hn]; simp [truthyNumber, hn0]
    rcases get_color_red_or_black n h0 h36 hn0 with h | h
    · refine ⟨"red", ?_, by decide⟩
      rw [if_pos htn, hn]
      simp [h]
      rfl
    · refine ⟨"black", ?_, by decide⟩
      rw [if_pos htn, hn]
      simp [h]
      rfl
  · refine ⟨c, ?_, hcC⟩
    rw [if_neg (by simp [htn]), hc]

lemma subtract_error_state (g : Game) (id : String) (a : Int) (e : RErr) (g2 : Game)
    (h : subtract_from_balance g id a = .error (e, g2)) : g2 = g := by
  unfold subtract_from_balance at h
  by_cases hf : has_sufficient_funds g id a = true
  · rw [if_neg (by simp [hf])] at h
    cases hd : g.data id with
    | none =>
      rw [hd] at h
      simp only [Except.error.injEq, Prod.mk.injEq] at h
      exact h.2.symm
    | some b =>
      rw [hd] at h
      exact absurd h (by simp)
  · rw [if_pos (by simp [hf])] at h
    simp only [Except.error.injEq, Prod.mk.injEq] at h
    exact h.2.symm

/-- C3: a bet whose target passes validation, with a positive amount
strictly greater than the player's balance, fails with
InsufficientBalanceError carrying the current balance and the requested
amount; the error carries the unchanged game state (no debit, no append). -/
theorem C3_insufficient_funds (g : Game) (bet : Bet)
    (ht : targetAccepted bet) (hpos : 0 < bet.amount)
    (hfunds : get_player_balance g bet.player.id < bet.amount) :
    place_bet g bet =
      .error (.insufficientBalance (get_player_balance g bet.player.id) bet.amount, g) := by
  obtain ⟨c, hc, hcC⟩ := targetAccepted_color bet ht
  have hnotsuf : ¬ (has_sufficient_funds g bet.player.id bet.amount = true) := by
    simp only [has_sufficient_funds, decide_eq_true_eq]
    omega
  simp only [place_bet, hc]
  rw [if_neg (by simp [hcC])]
  rw [if_neg (by omega)]
  unfold subtract_from_balance
  rw [if_pos hnotsuf]

/-- C3 witness: player "p1" with balance 5 betting 10 on red gets
InsufficientBalanceError(balance=5, bet=10). -/
theorem C3_insufficient_funds_witness :
    place_bet gW betInsufW = .error (.insufficientBalance 5 10, gW) :=
  C3_insufficient_funds gW betInsufW
    (Or.inr ⟨rfl, "red", rfl, by decide⟩) (by decide) (by decide)


/-- C4: `place_bet` validates target first (a number outside [0,36] raises
WrongNumberError with the offending value; an unrecognized color raises
WrongColorError with the offending value and the legal set), then the
minimum stake (amount ≤ 0 raises MinimalBetError), then funds; the first
failure wins, and every failure carries the unchanged game state. -/
theorem C4_validation_order (g : Game) (bet : Bet) :
    (∀ n, bet.number = some n → (n < 0 ∨ 36 < n) →
      place_bet g bet = .error (.wrongNumber n, g)) ∧
    (∀ c, truthyNumber bet.number = false → bet.color = some c →
      pyLower c ∉ COLORS →
      place_bet g bet = .error (.wrongColor c COLORS, g)) ∧
    (targetAccepted bet → bet.amount ≤ 0 →
      place_bet g bet = .error (.minimalBet MINIMAL_BET, g)) ∧
    (∀ e g2, place_bet g bet = .error (e, g2) → g2 = g) := by
  refine ⟨?_, ?_, ?_, ?_⟩
  · intro n hn hout
    have hn0 : n ≠ 0 := by omega
    have htn : truthyNumber bet.number = true := by
      rw [hn]; simp [truthyNumber, hn0]
    have hcolor : get_color (bet.number.getD 0) = .error (.wrongNumber n) := by
      rw [hn]
      exact get_color_error_of_outside n hout
    simp [place_bet, htn, hcolor]
    rfl
  · intro c htn hc hbad
    simp [place_bet, htn, hc, hbad]
  · intro ht hamt
    obtain ⟨c, hcc, hcC⟩ := targetAccepted_color bet ht
    simp only [place_bet, hcc]
    rw [if_neg (by simp [hcC]), if_pos hamt]
  · intro e g2 h
    unfold place_bet at h
    rcases hscr : (if truthyNumber bet.number then
        Except.map some (get_color (bet.number.getD 0)) else .ok bet.color) with e1 | oc
    · rw [hscr] at h
      simp only [Except.error.injEq, Prod.mk.injEq] at h
      exact h.2.symm
    · rw [hscr] at h
      cases oc with
      | none =>
        simp only [Except.error.injEq, Prod.mk.injEq] at h
        exact h.2.symm
      | some c =>
        simp only at h
        by_cases hcC : pyLower c ∈ COLORS
        · rw [if_neg (by simp [hcC])] at h
          by_cases hamt : bet.amount ≤ 0
          · rw [if_pos hamt] at h
            simp only [Except.error.injEq, Prod.mk.injEq] at h
            exact h.2.symm
          · rw [if_neg hamt] at h
            rcases hsub : subtract_from_balance g bet.player.id bet.amount with es | gs
            · rw [hsub] at h
              simp only [Except.error.injEq] at h
              rw [h] at hsub
              exact subtract_error_state g bet.player.id bet.amount e g2 hsub
            · rw [hsub] at h
              exact absurd h (by simp)
        · rw [if_pos (by simp [hcC])] at h
          simp only [Except.error.injEq, Prod.mk.injEq] at h
          exact h.2.symm

/-- C4 witness: betting 3 on number 37 fails with WrongNumberError(37) and
the unchanged state. -/
theorem C4_validation_order_witness :
    place_bet gW betNum37W = .error (.wrongNumber 37, gW) :=
  (C4_validation_order gW betNum37W).1 37 rfl (Or.inr (by decide))


lemma nonNeg_balance (g : Game) (id : String) (h : NonNeg g) :
    0 ≤ get_player_balance g id := by
  unfold get_player_balance
  cases hd : g.data id with
  | none => simp
  | some b => simpa using h id b hd

lemma nonNeg_setBalance (g : Game) (id : String) (v : Int)
    (h : NonNeg g) (hv : 0 ≤ v) : NonNeg (setBalance g id v) := by
  intro id2 b hb
  simp only [setBalance] at hb
  by_cases he : id2 = id
  · rw [if_pos he] at hb
    cases hb
    exact hv
  · rw [if_neg he] at hb
    exact h id2 b hb

lemma nonNeg_add_players (g : Game) (ids : List String) (h : NonNeg g) :
    NonNeg (add_players g ids) := by
  induction ids generalizing g with
  | nil => exact h
  | cons hd tl ih =>
    rw [add_players_cons]
    by_cases hhd : (g.data hd).isNone
    · rw [if_pos hhd]
      exact ih _ (nonNeg_setBalance g hd 100 h (by decide))
    · rw [if_neg hhd]
      exact ih g h

lemma nonNeg_add_to_balance (g : Game) (id : String) (a : Int)
    (h : NonNeg g) (ha : 0 ≤ a) : NonNeg (add_to_balance g id a) := by
  unfold add_to_balance
  refine nonNeg_setBalance g id _ h ?_
  have := nonNeg_balance g id h
  omega

lemma nonNeg_subtract (g : Game) (id : String) (a : Int) (g2 : Game)
    (h : NonNeg g) (hok : subtract_from_balance g id a = .ok g2) :
    NonNeg g2 ∧ get_player_balance g2 id = get_player_balance g id - a := by
  unfold subtract_from_balance at hok
  by_cases hf : has_sufficient_funds g id a = true
  · rw [if_neg (by simp [hf])] at hok
    cases hd : g.data id with
    | none =>
      rw [hd] at hok
      exact absurd hok (by simp)
    | some b =>
      rw [hd] at hok
      simp only [Except.ok.injEq] at hok
      subst hok
      have hbal : get_player_balance g id = b := by
        simp [get_player_balance, hd]
      have hba : 0 ≤ b - a := by
        simp only [has_sufficient_funds, decide_eq_true_eq, hbal] at hf
        omega
      constructor
      · exact nonNeg_setBalance g id (b - a) h hba
      · rw [get_player_balance_setBalance, if_pos rfl, hbal]
  · rw [if_pos (by simp [hf])] at hok
    exact absurd hok (by simp)

lemma nonNeg_place_bet (g : Game) (bet : Bet) (g2 : Game)
    (h : NonNeg g) (hok : place_bet g bet = .ok g2) : NonNeg g2 := by
  unfold place_bet at hok
  rcases hscr : (if truthyNumber bet.number then
      Except.map some (get_color (bet.number.getD 0)) else .ok bet.color) with e1 | oc
  · rw [hscr] at hok
    exact absurd hok (by simp)
  · rw [hscr] at hok
    cases oc with
    | none => exact absurd hok (by simp)
    | some c =>
      simp only at hok
      by_cases hcC : pyLower c ∈ COLORS
      · rw [if_neg (by simp [hcC])] at hok
        by_cases hamt : bet.amount ≤ 0
        · rw [if_pos hamt] at hok
          exact absurd hok (by simp)
        · rw [if_neg hamt] at hok
          rcases hsub : subtract_from_balance g bet.player.id bet.amount with es | gs
          · rw [hsub] at hok
            exact absurd hok (by simp)
          · rw [hsub] at hok
            simp only [Except.ok.injEq] at hok
            subst hok
            intro id b hb
            exact (nonNeg_subtract g bet.player.id bet.amount gs h hsub).1 id b hb
      · rw [if_pos (by simp [hcC])] at hok
        exact absurd hok (by simp)

lemma prize_nonneg (bet : Bet) (w p : Int)
    (hok : calculate_prize bet w = .ok p) (ha : 0 ≤ bet.amount) : 0 ≤ p := by
  unfold calculate_prize calculate_color_prize at hok
  by_cases hN : truthyNumber bet.number
  · rw [if_pos hN] at hok
    simp only [Except.ok.injEq] at hok
    subst hok
    unfold calculate_number_prize
    split
    · have : (0:Int) ≤ NUMBER_PRIZE_MULTIPLIER := by decide
      exact mul_nonneg ha this
    · exact le_refl 0
  · rw [if_neg hN] at hok
    by_cases hC : truthyColor bet.color
    · rw [if_pos hC] at hok
      rcases hg : get_color w with e | wc
      · rw [hg] at hok
        exact absurd hok (by simp)
      · rw [hg] at hok
        simp only [Except.ok.injEq] at hok
        subst hok
        split
        · have : (0:Int) ≤ COLOR_PRIZE_MULTIPLIER := by decide
          exact mul_nonneg ha this
        · exact le_refl 0
    · rw [if_neg hC] at hok
      simp only [Except.ok.injEq] at hok
      omega

lemma nonNeg_loop (w : Int) :
    ∀ (l : List Bet) (stats : List PlayerBetResult) (g : Game),
      NonNeg g → (∀ bet ∈ l, 0 ≤ bet.amount) →
      (∀ res, calculate_results_loop w stats g l = .ok res → NonNeg res.2) ∧
      (∀ e g2, calculate_results_loop w stats g l = .error (e, g2) → NonNeg g2) := by
  intro l
  induction l with
  | nil =>
    intro stats g hg _
    constructor
    · intro res hres
      simp only [calculate_results_loop, Except.ok.injEq] at hres
      rw [← hres]
      exact hg
    · intro e g2 hres
      exact absurd hres (by simp [calculate_results_loop])
  | cons bet rest ih =>
    intro stats g hg hl
    have hbet : 0 ≤ bet.amount := hl bet (List.mem_cons_self bet rest)
    have hrest : ∀ b ∈ rest, 0 ≤ b.amount :=
      fun b hb => hl b (List.mem_cons_of_mem bet hb)
    rcases hcp : calculate_prize bet w with e | p
    · constructor
      · intro res hres
        simp only [calculate_results_loop, hcp] at hres
        exact absurd hres (by simp)
      · intro e2 g2 hres
        simp only [calculate_results_loop, hcp, Except.error.injEq, Prod.mk.injEq] at hres
        rw [← hres.2]
        intro id b hb
        exact hg id b hb
    · have hp : 0 ≤ p := prize_nonneg bet w p hcp hbet
      have hg2 : NonNeg (add_to_balance g bet.player.id p) :=
        nonNeg_add_to_balance g bet.player.id p hg hp
      constructor
      · intro res hres
        simp only [calculate_results_loop, hcp] at hres
        exact (ih _ _ hg2 hrest).1 res hres
      · intro e2 g2 hres
        simp only [calculate_results_loop, hcp] at hres
        exact (ih _ _ hg2 hrest).2 e2 g2 hres

/-- C5: non-negative balances are an invariant of every engine operation;
the debit enforces it by the funds guard before subtracting, not by
clamping (the successful debit subtracts exactly the amount). -/
theorem C5_balances_never_negative :
    (∀ g ids, NonNeg g → NonNeg (add_players g ids)) ∧
    (∀ g id a, NonNeg g → 0 ≤ a → NonNeg (add_to_balance g id a)) ∧
    (∀ g id a g2, NonNeg g → subtract_from_balance g id a = .ok g2 →
      NonNeg g2 ∧ get_player_balance g2 id = get_player_balance g id - a) ∧
    (∀ g bet g2, NonNeg g → place_bet g bet = .ok g2 → NonNeg g2) ∧
    (∀ g w, NonNeg g → (∀ bet ∈ g.bets, 0 ≤ bet.amount) →
      (∀ res g2, calculate_results g w = .ok (res, g2) → NonNeg g2) ∧
      (∀ e g2, calculate_results g w = .error (e, g2) → NonNeg g2)) := by
  refine ⟨fun g ids h => nonNeg_add_players g ids h,
          fun g id a h ha => nonNeg_add_to_balance g id a h ha,
          fun g id a g2 h hok => nonNeg_subtract g id a g2 h hok,
          fun g bet g2 h hok => nonNeg_place_bet g bet g2 h hok,
          ?_⟩
  intro g w hg hbets
  have hbets2 : ∀ bet ∈ g.bets.reverse, 0 ≤ bet.amount := by
    intro b hb
    exact hbets b (List.mem_reverse.mp hb)
  have hg0 : NonNeg ({ g with bets := [] } : Game) := fun id b hb => hg id b hb
  have hloop := nonNeg_loop w g.bets.reverse [] { g with bets := [] } hg0 hbets2
  constructor
  · intro res g2 hok
    unfold calculate_results at hok
    exact hloop.1 (res, g2) hok
  · intro e g2 herr
    unfold calculate_results at herr
    exact hloop.2 e g2 herr


/-- C5 witness: the concrete ledger (balances 5 and 100) is non-negative
and stays non-negative after crediting 3 to "p2". -/
theorem C5_balances_never_negative_witness :
    NonNeg gW ∧ NonNeg (add_to_balance gW "p2" 3) :=
  have hNN : NonNeg gW := by
    intro id b hb
    unfold gW dataW at hb
    simp only at hb
    split_ifs at hb <;> simp_all <;> omega
  ⟨hNN, C5_balances_never_negative.2.1 gW "p2" 3 hNN (by decide)⟩

/-- C2 witness: the three pending bets of `gBetsW` (two by "p2", one by
"p1") settled at outcome 17. -/
theorem calculate_results_settles_each_bet_once_witness :
    ∃ res g2, calculate_results gBetsW 17 = .ok (res, g2) ∧
      g2.bets = [] ∧
      (∀ id, get_player_balance g2 id =
        get_player_balance gBetsW id + prizeSum id 17 gBetsW.bets) ∧
      (∀ id, countId id res = if hasBet id gBetsW.bets then 1 else 0) ∧
      (∀ r ∈ res, r.prize = prizeSum r.player.id 17 gBetsW.bets ∧
                  r.balance = get_player_balance g2 r.player.id) :=
  calculate_results_settles_each_bet_once gBetsW 17 (by decide) (by decide)

end Roulette
